import Mathlib

/-!
Shallow embedding of the scene-state machinery of `pysocialforce`
(`pysocialforce/scene.py` and the snapshot production in
`pysocialforce/sim_view.py`), together with proofs about the behaviour of
`PedState` (pedestrian state container) and `EnvState` (obstacle container).

Modelling conventions:
* numpy 2D arrays become `List (List ℝ)` (row major); the uniform column
  count of a 2D array is the length of its first row (`cols`);
* Python floats become real numbers, so every numeric statement is exact
  where the original only holds up to floating-point rounding;
* a Python value that may be `None` becomes an `Option`;
* code that can raise becomes `Except String`.
-/

/-- The four fields of `SceneConfig` that `PedState.__init__` reads
(`config.tau`, `config.dt_secs`, `config.agent_radius`,
`config.max_speed_multiplier`).  The config module itself is not part of the
verified core; only these numeric parameters flow into `scene.py`. -/
structure SceneConfig where
  tau : ℝ
  dt_secs : ℝ
  agent_radius : ℝ
  max_speed_multiplier : ℝ

/-- The mutable fields of a `PedState` object.  `state` is the padded matrix
stored in `self._state`, `groups` is the list stored in `self._groups`
(after the `None ↦ []` normalisation of the `groups` setter). -/
structure PedState where
  default_tau : ℝ
  d_t : ℝ
  agent_radius : ℝ
  max_speed_multiplier : ℝ
  max_speeds : Option (List ℝ)
  initial_speeds : Option (List ℝ)
  state : List (List ℝ)
  groups : List (List ℕ)

/-- Column count of a row-major matrix (`state.shape[1]` for a uniform
numpy array). -/
def cols (m : List (List ℝ)) : ℕ := (m.headD []).length

/-- Speed of one state row: `np.linalg.norm` of its velocity entries
(columns 2 and 3). -/
noncomputable def rowSpeed (r : List ℝ) : ℝ :=
  Real.sqrt ((r.getD 2 0) ^ 2 + (r.getD 3 0) ^ 2)

/-- `PedState.speeds`: per-agent Euclidean norm of the velocity columns. -/
noncomputable def speeds (m : List (List ℝ)) : List ℝ := m.map rowSpeed

/-- The matrix actually stored by `PedState._update_state`: a matrix with
fewer than 7 columns gets one extra column filled with the default tau
(`np.concatenate((state, np.expand_dims(tau, -1)), axis=-1)`); a matrix
with at least 7 columns is stored as-is. -/
def updateStateMatrix (default_tau : ℝ) (m : List (List ℝ)) : List (List ℝ) :=
  if cols m < 7 then m.map (fun r => r ++ [default_tau]) else m

/-- `PedState._update_state` / the `state` property setter: store the padded
matrix, set `initial_speeds` on the first assignment only, and recompute
`max_speeds = max_speed_multiplier * initial_speeds`. -/
noncomputable def PedState.setState (ps : PedState) (m : List (List ℝ)) : PedState :=
  let st := updateStateMatrix ps.default_tau m
  let init := ps.initial_speeds.getD (speeds st)
  { ps with
    state := st
    initial_speeds := some init
    max_speeds := some (init.map (fun s => ps.max_speed_multiplier * s)) }

/-- The `groups` property setter: `None` is stored as the empty list. -/
def setGroups (groups : Option (List (List ℕ))) : List (List ℕ) := groups.getD []

/-- `PedState.update(state, groups)`: assign the `state` property, then the
`groups` property. -/
noncomputable def PedState.update (ps : PedState) (m : List (List ℝ))
    (groups : Option (List (List ℕ))) : PedState :=
  { ps.setState m with groups := setGroups groups }

/-- `PedState.__init__`: copy the config fields, start with
`max_speeds = initial_speeds = None`, then run `update(state, groups)`. -/
noncomputable def PedState.construct (m : List (List ℝ)) (groups : Option (List (List ℕ)))
    (config : SceneConfig) : PedState :=
  PedState.update
    { default_tau := config.tau
      d_t := config.dt_secs
      agent_radius := config.agent_radius
      max_speed_multiplier := config.max_speed_multiplier
      max_speeds := none
      initial_speeds := none
      state := []
      groups := [] } m groups

/-- The per-agent scale factor of `PedState.capped_velocity`:
`factor = np.minimum(1.0, max_velocity / desired_speeds)` followed by
`factor[desired_speeds == 0] = 0.0`. -/
noncomputable def cappedFactor (max_speed desired_speed : ℝ) : ℝ :=
  if desired_speed = 0 then 0 else min 1 (max_speed / desired_speed)

/-- `PedState.capped_velocity`: scale each desired velocity row by its
factor. -/
noncomputable def capped_velocity (desired : List (ℝ × ℝ)) (max_velocity : List ℝ) :
    List (ℝ × ℝ) :=
  (desired.zip max_velocity).map (fun p =>
    let f := cappedFactor p.2 (Real.sqrt (p.1.1 ^ 2 + p.1.2 ^ 2))
    (f * p.1.1, f * p.1.2))

/-- `PedState.vel`: the velocity columns (2:4) of the state matrix. -/
def PedState.vel (ps : PedState) : List (ℝ × ℝ) :=
  ps.state.map (fun r => (r.getD 2 0, r.getD 3 0))

/-- Effect of `PedState.step` on one state row: positions (columns 0,1) get
`capped_velocity * d_t` added, velocities (columns 2,3) are replaced by the
capped velocity, all other columns are untouched. -/
def stepRow (d_t : ℝ) (r : List ℝ) (cv : ℝ × ℝ) : List ℝ :=
  (((r.set 0 (r.getD 0 0 + cv.1 * d_t)).set 1 (r.getD 1 0 + cv.2 * d_t)).set 2 cv.1).set 3 cv.2

/-- `PedState.step(force, groups=None)`: compute
`desired_velocity = vel + d_t * force`, cap it against `max_speeds`, update
positions and velocities in the state matrix, and call
`update(next_state, groups if groups is not None else self.groups)`. -/
noncomputable def PedState.step (ps : PedState) (force : List (ℝ × ℝ))
    (groups : Option (List (List ℕ))) : PedState :=
  let desired0 := (ps.vel.zip force).map
    (fun p => (p.1.1 + ps.d_t * p.2.1, p.1.2 + ps.d_t * p.2.2))
  let desired := capped_velocity desired0 (ps.max_speeds.getD [])
  let next := (ps.state.zip desired).map (fun p => stepRow ps.d_t p.1 p.2)
  ps.update next (some (groups.getD ps.groups))

/-- Iterated `step` with no group overrides, one force matrix per step. -/
noncomputable def PedState.stepN (ps : PedState) (forces : List (List (ℝ × ℝ))) : PedState :=
  forces.foldl (fun s f => s.step f none) ps

/-- `PedState.which_group`: the `for i, group in enumerate(self.groups)`
loop, with `k` as the running value of `enumerate`'s counter; returns the
first group index containing `index`, else `-1`. -/
def whichGroupAux (index : ℕ) : ℕ → List (List ℕ) → ℤ
  | _, [] => -1
  | k, g :: rest => if index ∈ g then (k : ℤ) else whichGroupAux index (k + 1) rest

/-- `PedState.which_group(index)`. -/
def whichGroup (groups : List (List ℕ)) (index : ℕ) : ℤ :=
  whichGroupAux index 0 groups

lemma length_stepRow (d_t : ℝ) (r : List ℝ) (cv : ℝ × ℝ) :
    (stepRow d_t r cv).length = r.length := by
  simp [stepRow]

lemma updateStateMatrix_of_wide (tau : ℝ) (m : List (List ℝ))
    (h : ∀ r ∈ m, 7 ≤ r.length) : updateStateMatrix tau m = m := by
  cases m with
  | nil => simp [updateStateMatrix, cols]
  | cons r rest =>
    have h7 : 7 ≤ r.length := h r (by simp)
    rw [updateStateMatrix, if_neg]
    simpa [cols] using h7

lemma exists_four_cons (r : List ℝ) (h : 4 ≤ r.length) :
    ∃ a b c d rest, r = a :: b :: c :: d :: rest := by
  cases r with
  | nil => simp at h
  | cons a r1 =>
    cases r1 with
    | nil => simp at h
    | cons b r2 =>
      cases r2 with
      | nil => simp at h
      | cons c r3 =>
        cases r3 with
        | nil => simp at h
        | cons d rest => exact ⟨a, b, c, d, rest, rfl⟩

lemma stepRow_getD (d_t : ℝ) (r : List ℝ) (cv : ℝ × ℝ) (h : 4 ≤ r.length) :
    (stepRow d_t r cv).getD 0 0 = r.getD 0 0 + cv.1 * d_t ∧
    (stepRow d_t r cv).getD 1 0 = r.getD 1 0 + cv.2 * d_t ∧
    (stepRow d_t r cv).getD 2 0 = cv.1 ∧
    (stepRow d_t r cv).getD 3 0 = cv.2 := by
  obtain ⟨a, b, c, d, rest, rfl⟩ := exists_four_cons r h
  simp [stepRow, List.getD]

lemma rowSpeed_stepRow (d_t : ℝ) (r : List ℝ) (cv : ℝ × ℝ) (h : 4 ≤ r.length) :
    rowSpeed (stepRow d_t r cv) = Real.sqrt (cv.1 ^ 2 + cv.2 ^ 2) := by
  obtain ⟨a, b, c, d, rest, rfl⟩ := exists_four_cons r h
  simp [stepRow, rowSpeed, List.getD]

lemma step_state_eq (ps : PedState) (force : List (ℝ × ℝ)) (g : Option (List (List ℕ)))
    (hrows : ∀ r ∈ ps.state, 7 ≤ r.length) :
    (ps.step force g).state =
      (ps.state.zip (capped_velocity
        ((ps.vel.zip force).map
          (fun p => (p.1.1 + ps.d_t * p.2.1, p.1.2 + ps.d_t * p.2.2)))
        (ps.max_speeds.getD []))).map (fun p => stepRow ps.d_t p.1 p.2) := by
  show updateStateMatrix ps.default_tau _ = _
  apply updateStateMatrix_of_wide
  intro r hr
  simp only [List.mem_map] at hr
  obtain ⟨p, hp, rfl⟩ := hr
  rw [length_stepRow]
  exact hrows p.1 (List.of_mem_zip hp).1

lemma capped_velocity_length (desired : List (ℝ × ℝ)) (maxv : List ℝ) :
    (capped_velocity desired maxv).length = min desired.length maxv.length := by
  simp [capped_velocity]

lemma step_row_eq (ps : PedState) (force : List (ℝ × ℝ)) (g : Option (List (List ℕ)))
    (maxv : List ℝ) (hms : ps.max_speeds = some maxv)
    (hrows : ∀ r ∈ ps.state, 7 ≤ r.length)
    (hf : force.length = ps.state.length) (hm : maxv.length = ps.state.length)
    (i : ℕ) (hi : i < ps.state.length) :
    (ps.step force g).state.getD i [] =
      stepRow ps.d_t (ps.state.getD i [])
        ((cappedFactor (maxv.getD i 0)
            (Real.sqrt (((ps.state.getD i []).getD 2 0 + ps.d_t * (force.getD i (0, 0)).1) ^ 2 +
              ((ps.state.getD i []).getD 3 0 + ps.d_t * (force.getD i (0, 0)).2) ^ 2)) *
            ((ps.state.getD i []).getD 2 0 + ps.d_t * (force.getD i (0, 0)).1),
          cappedFactor (maxv.getD i 0)
            (Real.sqrt (((ps.state.getD i []).getD 2 0 + ps.d_t * (force.getD i (0, 0)).1) ^ 2 +
              ((ps.state.getD i []).getD 3 0 + ps.d_t * (force.getD i (0, 0)).2) ^ 2)) *
            ((ps.state.getD i []).getD 3 0 + ps.d_t * (force.getD i (0, 0)).2))) := by
  have hvel : ps.vel.length = ps.state.length := by simp [PedState.vel]
  have hdes : ((ps.vel.zip force).map
      (fun p => (p.1.1 + ps.d_t * p.2.1, p.1.2 + ps.d_t * p.2.2))).length =
      ps.state.length := by
    simp [List.length_zip, hvel, hf]
  have hcap : (capped_velocity
      ((ps.vel.zip force).map
        (fun p => (p.1.1 + ps.d_t * p.2.1, p.1.2 + ps.d_t * p.2.2)))
      (ps.max_speeds.getD [])).length = ps.state.length := by
    rw [capped_velocity_length, hdes, hms]
    simp [hm]
  rw [step_state_eq ps force g hrows]
  have hlen : ((ps.state.zip (capped_velocity
      ((ps.vel.zip force).map
        (fun p => (p.1.1 + ps.d_t * p.2.1, p.1.2 + ps.d_t * p.2.2)))
      (ps.max_speeds.getD []))).map (fun p => stepRow ps.d_t p.1 p.2)).length =
      ps.state.length := by
    simp [List.length_zip, hcap]
  rw [List.getD_eq_getElem _ _ (by rw [hlen]; exact hi)]
  rw [List.getElem_map, List.getElem_zip]
  congr 1
  · exact (List.getD_eq_getElem _ _ hi).symm
  · -- the capped velocity at index i
    have hi' : i < (capped_velocity
        ((ps.vel.zip force).map
          (fun p => (p.1.1 + ps.d_t * p.2.1, p.1.2 + ps.d_t * p.2.2)))
        (ps.max_speeds.getD [])).length := by rw [hcap]; exact hi
    rw [List.getD_eq_getElem ps.state [] hi,
      List.getD_eq_getElem force (0, 0) (by rw [hf]; exact hi),
      List.getD_eq_getElem maxv 0 (by rw [hm]; exact hi)]
    unfold capped_velocity
    rw [List.getElem_map, List.getElem_zip, List.getElem_map, List.getElem_zip]
    simp only [hms, Option.getD_some, PedState.vel, List.getElem_map]

lemma step_fields (ps : PedState) (force : List (ℝ × ℝ)) (g : Option (List (List ℕ))) :
    (ps.step force g).d_t = ps.d_t ∧
    (ps.step force g).max_speed_multiplier = ps.max_speed_multiplier ∧
    (ps.step force g).default_tau = ps.default_tau := by
  refine ⟨rfl, rfl, rfl⟩

lemma step_initial_speeds (ps : PedState) (force : List (ℝ × ℝ))
    (g : Option (List (List ℕ))) (s : List ℝ) (h : ps.initial_speeds = some s) :
    (ps.step force g).initial_speeds = some s := by
  show some ((ps.initial_speeds).getD _) = some s
  rw [h, Option.getD_some]

lemma step_max_speeds (ps : PedState) (force : List (ℝ × ℝ))
    (g : Option (List (List ℕ))) (s : List ℝ) (h : ps.initial_speeds = some s) :
    (ps.step force g).max_speeds =
      some (s.map (fun x => ps.max_speed_multiplier * x)) := by
  show some (((ps.initial_speeds).getD _).map _) = _
  rw [h, Option.getD_some]

/-- The shape/anchoring invariant that every `PedState` reachable from the
constructor satisfies: `n` agents, a uniform row length `C ≥ 7`, a frozen
multiplier `mult`, and `initial_speeds` frozen at the nonnegative list
`init` with `max_speeds = mult * init`. -/
def PedInv (n C : ℕ) (mult : ℝ) (init : List ℝ) (ps : PedState) : Prop :=
  ps.state.length = n ∧ (∀ r ∈ ps.state, r.length = C) ∧ 7 ≤ C ∧
  ps.max_speed_multiplier = mult ∧
  ps.initial_speeds = some init ∧ init.length = n ∧ (∀ x ∈ init, 0 ≤ x) ∧
  ps.max_speeds = some (init.map (fun s => mult * s))

lemma construct_inv (config : SceneConfig) (m0 : List (List ℝ))
    (g0 : Option (List (List ℕ)))
    (hcols : 6 ≤ cols m0) (huni : ∀ r ∈ m0, r.length = cols m0) :
    PedInv m0.length (if cols m0 < 7 then cols m0 + 1 else cols m0)
      config.max_speed_multiplier
      (speeds (PedState.construct m0 g0 config).state)
      (PedState.construct m0 g0 config) := by
  have hstate : (PedState.construct m0 g0 config).state =
      updateStateMatrix config.tau m0 := rfl
  have hlen : (updateStateMatrix config.tau m0).length = m0.length := by
    unfold updateStateMatrix
    split <;> simp
  have hwide : ∀ r ∈ updateStateMatrix config.tau m0,
      r.length = if cols m0 < 7 then cols m0 + 1 else cols m0 := by
    intro r hr
    unfold updateStateMatrix at hr
    split at hr
    · next hlt =>
      simp only [List.mem_map] at hr
      obtain ⟨r0, hr0, rfl⟩ := hr
      simp [huni r0 hr0, if_pos hlt]
    · next hge => simp [huni r hr, if_neg hge]
  refine ⟨by rw [hstate, hlen], by rw [hstate]; exact hwide, by split <;> omega, rfl,
    rfl, ?_, ?_, rfl⟩
  · show (speeds (updateStateMatrix config.tau m0)).length = m0.length
    unfold speeds
    rw [List.length_map, hlen]
  · intro x hx
    unfold speeds at hx
    simp only [List.mem_map] at hx
    obtain ⟨r, _, rfl⟩ := hx
    exact Real.sqrt_nonneg _

lemma inv_step (n C : ℕ) (mult : ℝ) (init : List ℝ) (ps : PedState)
    (force : List (ℝ × ℝ)) (g : Option (List (List ℕ)))
    (hinv : PedInv n C mult init ps) (hf : force.length = n) :
    PedInv n C mult init (ps.step force g) := by
  obtain ⟨hn, hrows, hC, hmul, hinit, hilen, hpos, hms⟩ := hinv
  have hwide : ∀ r ∈ ps.state, 7 ≤ r.length := fun r hr => (hrows r hr) ▸ hC
  have hstate := step_state_eq ps force g hwide
  refine ⟨?_, ?_, hC, hmul ▸ (step_fields ps force g).2.1, step_initial_speeds _ _ _ _ hinit,
    hilen, hpos, ?_⟩
  · rw [hstate]
    simp only [List.length_map, List.length_zip, capped_velocity_length, hms,
      Option.getD_some, List.length_map, hn, hf, hilen]
    simp [PedState.vel, hn]
  · rw [hstate]
    intro r hr
    simp only [List.mem_map] at hr
    obtain ⟨p, hp, rfl⟩ := hr
    rw [length_stepRow]
    exact hrows p.1 (List.of_mem_zip hp).1
  · rw [step_max_speeds ps force g init hinit, hmul]

lemma inv_stepN (n C : ℕ) (mult : ℝ) (init : List ℝ) (ps : PedState)
    (forces : List (List (ℝ × ℝ)))
    (hinv : PedInv n C mult init ps) (hfs : ∀ f ∈ forces, f.length = n) :
    PedInv n C mult init (ps.stepN forces) := by
  induction forces generalizing ps with
  | nil => exact hinv
  | cons f fs ih =>
    exact ih (ps.step f none)
      (inv_step n C mult init ps f none hinv (hfs f (by simp)))
      (fun x hx => hfs x (by simp [hx]))

lemma abs_cappedFactor_mul_le (m s : ℝ) (hm : 0 ≤ m) (hs : 0 ≤ s) :
    |cappedFactor m s| * s ≤ m := by
  unfold cappedFactor
  by_cases h : s = 0
  · simp [h, hm]
  · have hs' : 0 < s := lt_of_le_of_ne hs (Ne.symm h)
    rw [if_neg h]
    have h0 : 0 ≤ min 1 (m / s) := le_min zero_le_one (div_nonneg hm hs)
    rw [abs_of_nonneg h0]
    calc min 1 (m / s) * s ≤ m / s * s :=
          mul_le_mul_of_nonneg_right (min_le_right _ _) hs
      _ = m := div_mul_cancel₀ m h

lemma step_speed_le (n C : ℕ) (mult : ℝ) (init : List ℝ) (ps : PedState)
    (force : List (ℝ × ℝ)) (g : Option (List (List ℕ)))
    (hinv : PedInv n C mult init ps) (hmult : 0 ≤ mult)
    (hf : force.length = n) (i : ℕ) (hi : i < n) :
    rowSpeed ((ps.step force g).state.getD i []) ≤ mult * init.getD i 0 := by
  obtain ⟨hn, hrows, hC, hmul, hinit, hilen, hpos, hms⟩ := hinv
  have hwide : ∀ r ∈ ps.state, 7 ≤ r.length := fun r hr => (hrows r hr) ▸ hC
  have hrow := step_row_eq ps force g (init.map (fun s => mult * s))
    (by rw [hms]) hwide (by rw [hf, hn]) (by simp [hilen, hn]) i (by rw [hn]; exact hi)
  rw [hrow, rowSpeed_stepRow]
  · have hsq : ∀ f a b : ℝ,
        Real.sqrt ((f * a) ^ 2 + (f * b) ^ 2) = |f| * Real.sqrt (a ^ 2 + b ^ 2) := by
      intro f a b
      rw [show (f * a) ^ 2 + (f * b) ^ 2 = f ^ 2 * (a ^ 2 + b ^ 2) by ring,
        Real.sqrt_mul (sq_nonneg f), Real.sqrt_sq_eq_abs]
    rw [hsq]
    have hmem : init.getD i 0 ∈ init := by
      rw [List.getD_eq_getElem _ _ (by rw [hilen]; exact hi)]
      exact List.getElem_mem _
    have hmxv : (init.map (fun s => mult * s)).getD i 0 = mult * init.getD i 0 := by
      rw [List.getD_eq_getElem _ _ (by simp only [List.length_map, hilen]; exact hi),
        List.getElem_map, List.getD_eq_getElem _ _ (by rw [hilen]; exact hi)]
    have hmx0 : 0 ≤ (init.map (fun s => mult * s)).getD i 0 := by
      rw [hmxv]
      exact mul_nonneg hmult (hpos _ hmem)
    exact le_of_le_of_eq
      (abs_cappedFactor_mul_le _ _ hmx0 (Real.sqrt_nonneg _)) hmxv
  · have hmemr : ps.state.getD i [] ∈ ps.state := by
      rw [List.getD_eq_getElem _ _ (by rw [hn]; exact hi)]
      exact List.getElem_mem _
    have := hrows _ hmemr
    omega

/-- C1: for every agent `i` and every number of calls to `step(force)`, the
agent's speed (Euclidean norm of its velocity row) after each step is at
most its frozen `max_speed`, which equals `max_speed_multiplier` times the
agent's speed at the very first state assignment (exactly, since the
embedding uses real arithmetic).  The first conjunct states that after any
run the stored cap is still `max_speed_multiplier` times the speeds of the
very first stored state; the second bounds the speed after one more
arbitrary step of that run. -/
theorem C1_speed_cap_frozen (config : SceneConfig) (m0 : List (List ℝ))
    (g0 : Option (List (List ℕ))) (forces : List (List (ℝ × ℝ)))
    (f : List (ℝ × ℝ)) (i : ℕ)
    (hmult : 0 ≤ config.max_speed_multiplier)
    (hcols : 6 ≤ cols m0) (huni : ∀ r ∈ m0, r.length = cols m0)
    (hforces : ∀ x ∈ forces, x.length = m0.length)
    (hf : f.length = m0.length) (hi : i < m0.length) :
    (((PedState.construct m0 g0 config).stepN forces).step f none).max_speeds =
      some ((speeds (PedState.construct m0 g0 config).state).map
        (fun s => config.max_speed_multiplier * s)) ∧
    rowSpeed ((((PedState.construct m0 g0 config).stepN forces).step f none).state.getD i [])
      ≤ config.max_speed_multiplier *
        (speeds (PedState.construct m0 g0 config).state).getD i 0 := by
  have hinv0 := construct_inv config m0 g0 hcols huni
  have hinvN := inv_stepN _ _ _ _ _ forces hinv0 hforces
  constructor
  · exact (inv_step _ _ _ _ _ f none hinvN hf).2.2.2.2.2.2.2
  · exact step_speed_le _ _ _ _ _ f none hinvN hmult hf i hi

/-- Witness for C1 at a concrete input: one agent with initial velocity
`(1,0)`, multiplier `13/10`, no preceding steps, one zero-force step. -/
theorem C1_speed_cap_frozen_witness :
    (((PedState.construct [[0, 0, 1, 0, 10, 0, 1/2]] none
        ⟨1/2, 1/10, 2/5, 13/10⟩).stepN []).step [(0, 0)] none).max_speeds =
      some ((speeds (PedState.construct [[0, 0, 1, 0, 10, 0, 1/2]] none
        ⟨1/2, 1/10, 2/5, 13/10⟩).state).map (fun s => (13/10 : ℝ) * s)) ∧
    rowSpeed ((((PedState.construct [[0, 0, 1, 0, 10, 0, 1/2]] none
        ⟨1/2, 1/10, 2/5, 13/10⟩).stepN []).step [(0, 0)] none).state.getD 0 [])
      ≤ (13/10 : ℝ) * (speeds (PedState.construct [[0, 0, 1, 0, 10, 0, 1/2]] none
        ⟨1/2, 1/10, 2/5, 13/10⟩).state).getD 0 0 :=
  C1_speed_cap_frozen ⟨1/2, 1/10, 2/5, 13/10⟩ [[0, 0, 1, 0, 10, 0, 1/2]] none [] [(0, 0)] 0
    (by norm_num) (by norm_num [cols])
    (by intro r hr; simp only [List.mem_singleton] at hr; subst hr; rfl)
    (by intro x hx; simp at hx) rfl (by norm_num)

/-- C3: for an agent whose desired speed (norm of `velocity + dt * force`)
is exactly zero, `capped_velocity` applies factor `0` instead of dividing by
the zero speed, and the agent's velocity after `step()` is exactly `(0,0)`,
for any `max_speeds` value. -/
theorem C3_zero_desired_speed (ps : PedState) (force : List (ℝ × ℝ)) (maxv : List ℝ)
    (i : ℕ) (hms : ps.max_speeds = some maxv)
    (hrows : ∀ r ∈ ps.state, 7 ≤ r.length)
    (hf : force.length = ps.state.length) (hm : maxv.length = ps.state.length)
    (hi : i < ps.state.length)
    (hzero : Real.sqrt
      (((ps.state.getD i []).getD 2 0 + ps.d_t * (force.getD i (0, 0)).1) ^ 2 +
        ((ps.state.getD i []).getD 3 0 + ps.d_t * (force.getD i (0, 0)).2) ^ 2) = 0) :
    (∀ m : ℝ, cappedFactor m 0 = 0) ∧
    ((ps.step force none).state.getD i []).getD 2 0 = 0 ∧
    ((ps.step force none).state.getD i []).getD 3 0 = 0 := by
  have hwide : 4 ≤ (ps.state.getD i []).length := by
    have hmemr : ps.state.getD i [] ∈ ps.state := by
      rw [List.getD_eq_getElem _ _ hi]
      exact List.getElem_mem _
    have := hrows _ hmemr
    omega
  have hrow := step_row_eq ps force none maxv hms hrows hf hm i hi
  have hgetD := stepRow_getD ps.d_t (ps.state.getD i [])
    ((cappedFactor (maxv.getD i 0)
        (Real.sqrt (((ps.state.getD i []).getD 2 0 + ps.d_t * (force.getD i (0, 0)).1) ^ 2 +
          ((ps.state.getD i []).getD 3 0 + ps.d_t * (force.getD i (0, 0)).2) ^ 2)) *
        ((ps.state.getD i []).getD 2 0 + ps.d_t * (force.getD i (0, 0)).1),
      cappedFactor (maxv.getD i 0)
        (Real.sqrt (((ps.state.getD i []).getD 2 0 + ps.d_t * (force.getD i (0, 0)).1) ^ 2 +
          ((ps.state.getD i []).getD 3 0 + ps.d_t * (force.getD i (0, 0)).2) ^ 2)) *
        ((ps.state.getD i []).getD 3 0 + ps.d_t * (force.getD i (0, 0)).2))) hwide
  refine ⟨fun m => by simp [cappedFactor], ?_, ?_⟩
  · rw [hrow, hgetD.2.2.1]
    unfold cappedFactor
    rw [if_pos hzero]
    simp
  · rw [hrow, hgetD.2.2.2]
    unfold cappedFactor
    rw [if_pos hzero]
    simp

/-- Witness for C3: one agent with velocity `(1,0)`, `dt = 1/10`, force
`(-10, 0)`, so the desired velocity is exactly `(0,0)`. -/
theorem C3_zero_desired_speed_witness :
    (∀ m : ℝ, cappedFactor m 0 = 0) ∧
    (((PedState.construct [[0, 0, 1, 0, 10, 0, 1/2]] none
        ⟨1/2, 1/10, 2/5, 13/10⟩).step [(-10, 0)] none).state.getD 0 []).getD 2 0 = 0 ∧
    (((PedState.construct [[0, 0, 1, 0, 10, 0, 1/2]] none
        ⟨1/2, 1/10, 2/5, 13/10⟩).step [(-10, 0)] none).state.getD 0 []).getD 3 0 = 0 :=
  C3_zero_desired_speed
    (PedState.construct [[0, 0, 1, 0, 10, 0, 1/2]] none ⟨1/2, 1/10, 2/5, 13/10⟩)
    [(-10, 0)]
    ((speeds (updateStateMatrix (1/2) [[0, 0, 1, 0, 10, 0, 1/2]])).map
      (fun s => (13/10 : ℝ) * s))
    0 rfl
    (by intro r hr
        simp only [show (PedState.construct [[0, 0, 1, 0, 10, 0, 1/2]] none
          ⟨1/2, 1/10, 2/5, 13/10⟩).state = [[0, 0, 1, 0, 10, 0, 1/2]] from rfl,
          List.mem_singleton] at hr
        subst hr
        norm_num)
    rfl rfl (by show (0 : ℕ) < 1; norm_num)
    (by show Real.sqrt (((1 : ℝ) + 1/10 * (-10)) ^ 2 + ((0 : ℝ) + 1/10 * 0) ^ 2) = 0
        norm_num)

/-- C2: one call to `step(net_force)` computes
`desired_velocity = velocity + dt * net_force`, caps it per agent against
the frozen `max_speeds`, then sets `position` to
`position + capped_velocity * dt` and `velocity` to the capped velocity
(first conjunct); in particular for 2 agents with state
`[[0,0,1,0,10,0,1/2],[0,0,0,1,0,10,1/2]]`, `dt = 1/10`,
`max_speed_multiplier ≥ 1` and zero net force, after one step agent 0 is at
`(1/10, 0)` with unchanged velocity `(1,0)` and agent 1 is at `(0, 1/10)`
(second conjunct). -/
theorem C2_step_integration :
    (∀ (ps : PedState) (force : List (ℝ × ℝ)) (maxv : List ℝ) (i : ℕ),
      ps.max_speeds = some maxv →
      (∀ r ∈ ps.state, 7 ≤ r.length) →
      force.length = ps.state.length →
      maxv.length = ps.state.length →
      i < ps.state.length →
      ((ps.step force none).state.getD i []).getD 0 0 =
        (ps.state.getD i []).getD 0 0 +
          cappedFactor (maxv.getD i 0)
            (Real.sqrt (((ps.state.getD i []).getD 2 0 + ps.d_t * (force.getD i (0, 0)).1) ^ 2 +
              ((ps.state.getD i []).getD 3 0 + ps.d_t * (force.getD i (0, 0)).2) ^ 2)) *
            ((ps.state.getD i []).getD 2 0 + ps.d_t * (force.getD i (0, 0)).1) * ps.d_t ∧
      ((ps.step force none).state.getD i []).getD 1 0 =
        (ps.state.getD i []).getD 1 0 +
          cappedFactor (maxv.getD i 0)
            (Real.sqrt (((ps.state.getD i []).getD 2 0 + ps.d_t * (force.getD i (0, 0)).1) ^ 2 +
              ((ps.state.getD i []).getD 3 0 + ps.d_t * (force.getD i (0, 0)).2) ^ 2)) *
            ((ps.state.getD i []).getD 3 0 + ps.d_t * (force.getD i (0, 0)).2) * ps.d_t ∧
      ((ps.step force none).state.getD i []).getD 2 0 =
        cappedFactor (maxv.getD i 0)
          (Real.sqrt (((ps.state.getD i []).getD 2 0 + ps.d_t * (force.getD i (0, 0)).1) ^ 2 +
            ((ps.state.getD i []).getD 3 0 + ps.d_t * (force.getD i (0, 0)).2) ^ 2)) *
          ((ps.state.getD i []).getD 2 0 + ps.d_t * (force.getD i (0, 0)).1) ∧
      ((ps.step force none).state.getD i []).getD 3 0 =
        cappedFactor (maxv.getD i 0)
          (Real.sqrt (((ps.state.getD i []).getD 2 0 + ps.d_t * (force.getD i (0, 0)).1) ^ 2 +
            ((ps.state.getD i []).getD 3 0 + ps.d_t * (force.getD i (0, 0)).2) ^ 2)) *
          ((ps.state.getD i []).getD 3 0 + ps.d_t * (force.getD i (0, 0)).2)) ∧
    (∀ config : SceneConfig, config.dt_secs = 1/10 → 1 ≤ config.max_speed_multiplier →
      ((PedState.construct [[0, 0, 1, 0, 10, 0, 1/2], [0, 0, 0, 1, 0, 10, 1/2]] none
          config).step [(0, 0), (0, 0)] none).state =
        [[1/10, 0, 1, 0, 10, 0, 1/2], [0, 1/10, 0, 1, 0, 10, 1/2]]) := by
  constructor
  · intro ps force maxv i hms hrows hf hm hi
    have hwide : 4 ≤ (ps.state.getD i []).length := by
      have hmemr : ps.state.getD i [] ∈ ps.state := by
        rw [List.getD_eq_getElem _ _ hi]
        exact List.getElem_mem _
      have := hrows _ hmemr
      omega
    rw [step_row_eq ps force none maxv hms hrows hf hm i hi]
    exact stepRow_getD ps.d_t (ps.state.getD i []) _ hwide
  · intro config hdt hmul
    have hstate : (PedState.construct [[0, 0, 1, 0, 10, 0, 1/2], [0, 0, 0, 1, 0, 10, 1/2]]
        none config).state = [[0, 0, 1, 0, 10, 0, 1/2], [0, 0, 0, 1, 0, 10, 1/2]] := by
      show updateStateMatrix config.tau [[0, 0, 1, 0, 10, 0, 1/2], [0, 0, 0, 1, 0, 10, 1/2]]
        = [[0, 0, 1, 0, 10, 0, 1/2], [0, 0, 0, 1, 0, 10, 1/2]]
      norm_num [updateStateMatrix, cols]
    have hms : (PedState.construct [[0, 0, 1, 0, 10, 0, 1/2], [0, 0, 0, 1, 0, 10, 1/2]]
        none config).max_speeds =
        some [config.max_speed_multiplier, config.max_speed_multiplier] := by
      show some (((none : Option (List ℝ)).getD
        (speeds (updateStateMatrix config.tau
          [[0, 0, 1, 0, 10, 0, 1/2], [0, 0, 0, 1, 0, 10, 1/2]]))).map
          (fun s => config.max_speed_multiplier * s)) =
        some [config.max_speed_multiplier, config.max_speed_multiplier]
      rw [Option.getD_none]
      norm_num [updateStateMatrix, cols, speeds, rowSpeed, List.getD, Real.sqrt_one]
    have hwide : ∀ r ∈ (PedState.construct [[0, 0, 1, 0, 10, 0, 1/2],
        [0, 0, 0, 1, 0, 10, 1/2]] none config).state, 7 ≤ r.length := by
      rw [hstate]
      intro r hr
      simp only [List.mem_cons, List.not_mem_nil, or_false] at hr
      rcases hr with rfl | rfl <;> norm_num
    have hdt' : (PedState.construct [[0, 0, 1, 0, 10, 0, 1/2], [0, 0, 0, 1, 0, 10, 1/2]]
        none config).d_t = 1/10 := hdt
    have hmin : min 1 config.max_speed_multiplier = 1 := min_eq_left hmul
    rw [step_state_eq _ _ _ hwide, PedState.vel, hstate, hms, hdt']
    norm_num [capped_velocity, cappedFactor, stepRow, List.getD, Real.sqrt_one, hmin]

/-- Witness for C2: the concrete two-agent scenario at multiplier `13/10`.
-/
theorem C2_step_integration_witness :
    ((PedState.construct [[0, 0, 1, 0, 10, 0, 1/2], [0, 0, 0, 1, 0, 10, 1/2]] none
        ⟨1/2, 1/10, 2/5, 13/10⟩).step [(0, 0), (0, 0)] none).state =
      [[1/10, 0, 1, 0, 10, 0, 1/2], [0, 1/10, 0, 1, 0, 10, 1/2]] :=
  C2_step_integration.2 ⟨1/2, 1/10, 2/5, 13/10⟩ rfl (by norm_num)

/-- C4: once `initial_speeds` and `max_speeds` have been set by the first
state assignment, a later `update(state, groups)` call leaves both values
unchanged (even for a state matrix with different velocities) and replaces
only `state` and `groups`; the configuration fields are untouched as
well. -/
theorem C4_update_preserves_anchors (ps : PedState) (m : List (List ℝ))
    (g : Option (List (List ℕ))) (s : List ℝ)
    (h1 : ps.initial_speeds = some s)
    (h2 : ps.max_speeds = some (s.map (fun x => ps.max_speed_multiplier * x))) :
    (ps.update m g).initial_speeds = ps.initial_speeds ∧
    (ps.update m g).max_speeds = ps.max_speeds ∧
    (ps.update m g).state = updateStateMatrix ps.default_tau m ∧
    (ps.update m g).groups = setGroups g ∧
    (ps.update m g).d_t = ps.d_t ∧
    (ps.update m g).default_tau = ps.default_tau ∧
    (ps.update m g).agent_radius = ps.agent_radius ∧
    (ps.update m g).max_speed_multiplier = ps.max_speed_multiplier := by
  unfold PedState.update PedState.setState
  simp [h1, h2]

/-- Witness for C4: a constructed one-agent state updated with a matrix
whose velocity row is different; the anchors survive. -/
theorem C4_update_preserves_anchors_witness :
    ((PedState.construct [[0, 0, 1, 0, 10, 0, 1/2]] none
        ⟨1/2, 1/10, 2/5, 13/10⟩).update [[5, 5, 0, 0, 1, 1, 2]] (some [[0]])).initial_speeds =
      (PedState.construct [[0, 0, 1, 0, 10, 0, 1/2]] none
        ⟨1/2, 1/10, 2/5, 13/10⟩).initial_speeds ∧
    ((PedState.construct [[0, 0, 1, 0, 10, 0, 1/2]] none
        ⟨1/2, 1/10, 2/5, 13/10⟩).update [[5, 5, 0, 0, 1, 1, 2]] (some [[0]])).max_speeds =
      (PedState.construct [[0, 0, 1, 0, 10, 0, 1/2]] none
        ⟨1/2, 1/10, 2/5, 13/10⟩).max_speeds ∧
    ((PedState.construct [[0, 0, 1, 0, 10, 0, 1/2]] none
        ⟨1/2, 1/10, 2/5, 13/10⟩).update [[5, 5, 0, 0, 1, 1, 2]] (some [[0]])).state =
      updateStateMatrix (1/2) [[5, 5, 0, 0, 1, 1, 2]] ∧
    ((PedState.construct [[0, 0, 1, 0, 10, 0, 1/2]] none
        ⟨1/2, 1/10, 2/5, 13/10⟩).update [[5, 5, 0, 0, 1, 1, 2]] (some [[0]])).groups =
      setGroups (some [[0]]) ∧
    ((PedState.construct [[0, 0, 1, 0, 10, 0, 1/2]] none
        ⟨1/2, 1/10, 2/5, 13/10⟩).update [[5, 5, 0, 0, 1, 1, 2]] (some [[0]])).d_t = 1/10 ∧
    ((PedState.construct [[0, 0, 1, 0, 10, 0, 1/2]] none
        ⟨1/2, 1/10, 2/5, 13/10⟩).update [[5, 5, 0, 0, 1, 1, 2]] (some [[0]])).default_tau = 1/2 ∧
    ((PedState.construct [[0, 0, 1, 0, 10, 0, 1/2]] none
        ⟨1/2, 1/10, 2/5, 13/10⟩).update [[5, 5, 0, 0, 1, 1, 2]] (some [[0]])).agent_radius = 2/5 ∧
    ((PedState.construct [[0, 0, 1, 0, 10, 0, 1/2]] none
        ⟨1/2, 1/10, 2/5, 13/10⟩).update
          [[5, 5, 0, 0, 1, 1, 2]] (some [[0]])).max_speed_multiplier = 13/10 :=
  C4_update_preserves_anchors
    (PedState.construct [[0, 0, 1, 0, 10, 0, 1/2]] none ⟨1/2, 1/10, 2/5, 13/10⟩)
    [[5, 5, 0, 0, 1, 1, 2]] (some [[0]])
    (speeds (updateStateMatrix (1/2) [[0, 0, 1, 0, 10, 0, 1/2]])) rfl rfl

/-- C5 counterexample: a 5-column state matrix (column count neither 6 nor
at least 7) is not rejected: `_update_state` silently pads it with the
default-tau column and stores the 6-column result.  No `InvalidStateShape`
(or any other) failure exists on this path: the assignment is total. -/
theorem C5_counterexample_five_columns_stored :
    (PedState.construct [[1, 2, 3, 4, 5]] none ⟨1/2, 1/10, 2/5, 13/10⟩).state =
      [[1, 2, 3, 4, 5, 1/2]] := by
  show updateStateMatrix (1/2) [[1, 2, 3, 4, 5]] = [[1, 2, 3, 4, 5, 1/2]]
  norm_num [updateStateMatrix, cols]

/-- C5 amended: state assignment (at construction and at every update) pads
any matrix with fewer than 7 columns with one default-tau column and stores
any matrix with at least 7 columns as-is; no column count is validated and
no failure is raised. -/
theorem C5_padding_no_validation (ps : PedState) (m : List (List ℝ))
    (g : Option (List (List ℕ))) (config : SceneConfig) :
    (cols m < 7 →
      (ps.update m g).state = m.map (fun r => r ++ [ps.default_tau]) ∧
      (PedState.construct m g config).state = m.map (fun r => r ++ [config.tau])) ∧
    (7 ≤ cols m →
      (ps.update m g).state = m ∧ (PedState.construct m g config).state = m) := by
  constructor
  · intro h
    constructor
    · show updateStateMatrix ps.default_tau m = _
      rw [updateStateMatrix, if_pos h]
    · show updateStateMatrix config.tau m = _
      rw [updateStateMatrix, if_pos h]
  · intro h
    constructor
    · show updateStateMatrix ps.default_tau m = _
      rw [updateStateMatrix, if_neg (by omega)]
    · show updateStateMatrix config.tau m = _
      rw [updateStateMatrix, if_neg (by omega)]

/-- Witness for C5 (amended): the 5-column matrix from the counterexample is
padded, both on `update` of an existing state and at construction. -/
theorem C5_padding_no_validation_witness :
    cols [[1, 2, 3, 4, 5]] < 7 ∧
    ((PedState.construct [[0, 0, 1, 0, 10, 0, 1/2]] none
        ⟨1/2, 1/10, 2/5, 13/10⟩).update [[1, 2, 3, 4, 5]] none).state =
      [[1, 2, 3, 4, 5]].map (fun r => r ++ [(1/2 : ℝ)]) ∧
    (PedState.construct [[1, 2, 3, 4, 5]] none ⟨1/2, 1/10, 2/5, 13/10⟩).state =
      [[1, 2, 3, 4, 5]].map (fun r => r ++ [(1/2 : ℝ)]) :=
  ⟨by norm_num [cols],
    (C5_padding_no_validation
      (PedState.construct [[0, 0, 1, 0, 10, 0, 1/2]] none ⟨1/2, 1/10, 2/5, 13/10⟩)
      [[1, 2, 3, 4, 5]] none ⟨1/2, 1/10, 2/5, 13/10⟩).1 (by norm_num [cols])⟩

lemma whichGroupAux_first (index : ℕ) (groups : List (List ℕ)) (k j : ℕ)
    (hj : j < groups.length) (hmem : index ∈ groups.getD j [])
    (hfirst : ∀ l, l < j → index ∉ groups.getD l []) :
    whichGroupAux index k groups = (k + j : ℤ) := by
  induction groups generalizing k j with
  | nil => simp at hj
  | cons g rest ih =>
    cases j with
    | zero =>
      simp only [List.getD_cons_zero] at hmem
      unfold whichGroupAux
      rw [if_pos hmem]
      simp
    | succ j0 =>
      have hnotg : index ∉ g := by
        have := hfirst 0 (Nat.succ_pos j0)
        simpa using this
      unfold whichGroupAux
      rw [if_neg hnotg]
      have hrec := ih (k + 1) j0 (by simpa using hj) (by simpa using hmem)
        (fun l hl => by simpa using hfirst (l + 1) (by omega))
      rw [hrec]
      push_cast
      ring

/-- C10: a `None` group list (at construction or via `update`) is stored as
the empty list, and `which_group(i)` then returns the sentinel `-1` for
every index `i`; for a stored group list, `which_group(i)` returns the
index of the first group containing `i` in insertion order. -/
theorem C10_none_groups_and_first_match :
    setGroups none = [] ∧
    (∀ (ps : PedState) (m : List (List ℝ)) (config : SceneConfig) (i : ℕ),
      (ps.update m none).groups = [] ∧
      (PedState.construct m none config).groups = [] ∧
      whichGroup (ps.update m none).groups i = -1 ∧
      whichGroup (PedState.construct m none config).groups i = -1) ∧
    (∀ (groups : List (List ℕ)) (i j : ℕ), j < groups.length →
      i ∈ groups.getD j [] → (∀ l, l < j → i ∉ groups.getD l []) →
      whichGroup groups i = j) := by
  refine ⟨rfl, fun ps m config i => ⟨rfl, rfl, rfl, rfl⟩, ?_⟩
  intro groups i j hj hmem hfirst
  have := whichGroupAux_first i groups 0 j hj hmem hfirst
  rw [whichGroup, this]
  simp

/-- Witness for C10 at the spec's example `groups = [[0,1],[2]]`: agent 2 is
found in the second group (index 1). -/
theorem C10_none_groups_and_first_match_witness :
    whichGroup [[0, 1], [2]] 2 = 1 :=
  C10_none_groups_and_first_match.2.2 [[0, 1], [2]] 2 1 (by norm_num)
    (by decide) (by intro l hl; interval_cases l; decide)

/-- A 2D obstacle line in the source's field order
`(start_x, end_x, start_y, end_y)` (the unusual interleaving is the format
of `EnvState._orig_obstacles`). -/
structure Line2D where
  start_x : ℝ
  end_x : ℝ
  start_y : ℝ
  end_y : ℝ

/-- Python `int()` on a float: truncation toward zero. -/
noncomputable def intTrunc (x : ℝ) : ℤ := if x < 0 then ⌈x⌉ else ⌊x⌋

/-- `np.linalg.norm((start_x - end_x, start_y - end_y))`: the Euclidean
length of an obstacle line. -/
noncomputable def lineLength (l : Line2D) : ℝ :=
  Real.sqrt ((l.start_x - l.end_x) ^ 2 + (l.start_y - l.end_y) ^ 2)

/-- `np.linspace(a, b, n)` (default `endpoint=True`): `n` evenly spaced
samples from `a` to `b`; `n = 1` gives `[a]`, `n = 0` gives the empty
array. -/
noncomputable def linspace (a b : ℝ) (n : ℕ) : List ℝ :=
  if n = 0 then []
  else if n = 1 then [a]
  else (List.range n).map (fun (i : ℕ) => a + (b - a) * (i : ℝ) / ((n : ℝ) - 1))

/-- The per-line sample count of `_update_obstacles_linspace`:
`int(np.linalg.norm(...) * self._resolution)`. -/
noncomputable def sampleCount (res : ℝ) (l : Line2D) : ℤ :=
  intTrunc (lineLength l * res)

/-- One line's sample point cloud:
`np.array(list(zip(np.linspace(start_x, end_x, samples),
np.linspace(start_y, end_y, samples))))`. -/
noncomputable def lineSamples (res : ℝ) (l : Line2D) : List (ℝ × ℝ) :=
  (linspace l.start_x l.end_x (sampleCount res l).toNat).zip
    (linspace l.start_y l.end_y (sampleCount res l).toNat)

/-- `EnvState._update_obstacles_linspace`: `None` yields no obstacles,
otherwise one sample cloud per line. -/
noncomputable def updateObstaclesLinspace (res : ℝ) (obs_lines : Option (List Line2D)) :
    List (List (ℝ × ℝ)) :=
  match obs_lines with
  | none => []
  | some lines => lines.map (fun l => lineSamples res l)

/-- `math.atan2(y, x)` over the reals: the argument of the complex number
`x + i*y`, valued in `(-π, π]` (identical to `atan2` on all non-degenerate
real inputs; the float `-0.0` distinction does not exist over ℝ). -/
noncomputable def atan2 (y x : ℝ) : ℝ := Complex.arg ⟨x, y⟩

/-- Python float `%` with modulus `b`: `a - b * floor(a / b)`. -/
noncomputable def pymod (a b : ℝ) : ℝ := a - b * ⌊a / b⌋

/-- `orient(line)` in `_update_obstacles_raw`:
`(atan2(vec_y, vec_x) + 2 * pi) % (2 * pi)`. -/
noncomputable def orient (l : Line2D) : ℝ :=
  pymod (atan2 (l.end_y - l.start_y) (l.end_x - l.start_x) + 2 * Real.pi) (2 * Real.pi)

/-- `ortho_orients = (line_orients + pi / 2) % (2 * pi)`. -/
noncomputable def orthoOrient (l : Line2D) : ℝ :=
  pymod (orient l + Real.pi / 2) (2 * Real.pi)

/-- One row of the array built by `_update_obstacles_raw`:
`(start_x, start_y, end_x, end_y)` at indices 0-3 and the orthogonal unit
vector `(cos, sin)` of the orthogonal angle at indices 4-5. -/
noncomputable def descriptor (l : Line2D) : List ℝ :=
  [l.start_x, l.start_y, l.end_x, l.end_y,
    Real.cos (orthoOrient l), Real.sin (orthoOrient l)]

/-- `EnvState._update_obstacles_raw`.  `None` is guarded explicitly and
yields the empty array; a nonempty list yields one 6-field descriptor row
per line.  For the empty list the code reaches
`obstacles[:, :4] = [...]` with an empty right-hand side: numpy refuses to
broadcast the `(0,)`-shaped empty array into the `(0, 4)`-shaped target
(the trailing dimensions 0 and 4 are incompatible) and raises
`ValueError`; this exception is modelled as `Except.error`. -/
noncomputable def updateObstaclesRaw (obs_lines : Option (List Line2D)) :
    Except String (List (List ℝ)) :=
  match obs_lines with
  | none => .ok []
  | some lines =>
    if lines.isEmpty then
      .error "could not broadcast input array from shape (0,) into shape (0,4)"
    else
      .ok (lines.map descriptor)

/-- `EnvState.__post_init__` and the `obstacles` setter: recompute
`_obstacles_raw` first, then `_obstacles_linspace`; an exception raised by
`_update_obstacles_raw` propagates to the caller. -/
noncomputable def envStateDerived (obstacles : Option (List Line2D)) (res : ℝ) :
    Except String ((List (List ℝ)) × List (List (ℝ × ℝ))) :=
  match updateObstaclesRaw obstacles with
  | .error e => .error e
  | .ok raw => .ok (raw, updateObstaclesLinspace res obstacles)

lemma length_linspace (a b : ℝ) (n : ℕ) : (linspace a b n).length = n := by
  unfold linspace
  split
  · next h => simp [h]
  · split
    · next h => simp [h]
    · rw [List.length_map, List.length_range]

lemma length_lineSamples (res : ℝ) (l : Line2D) :
    (lineSamples res l).length = (sampleCount res l).toNat := by
  unfold lineSamples
  simp [List.length_zip, length_linspace]

lemma linspace_getD (a b : ℝ) (n : ℕ) (i : ℕ) (hi : i < n) (h2 : 2 ≤ n) :
    (linspace a b n).getD i 0 = a + (b - a) * (i : ℝ) / ((n : ℝ) - 1) := by
  unfold linspace
  rw [if_neg (by omega), if_neg (by omega)]
  rw [List.getD_eq_getElem _ _ (by rw [List.length_map, List.length_range]; exact hi)]
  simp [List.getElem_map]

/-- C7 counterexample: for the line `(0, 19/100, 0, 0)` (length `19/100`)
with resolution 10 the code produces `int(1.9) = 1` sample point, while
`round(1.9) = 2`: the sample count is not `round(length * resolution)`. -/
theorem C7_counterexample_int_vs_round :
    (lineSamples 10 ⟨0, 19/100, 0, 0⟩).length = 1 ∧
    round (lineLength ⟨0, 19/100, 0, 0⟩ * 10) = 2 := by
  have hlen : lineLength ⟨0, 19/100, 0, 0⟩ = 19/100 := by
    unfold lineLength
    rw [show ((0 : ℝ) - 19/100) ^ 2 + ((0 : ℝ) - 0) ^ 2 = (19/100) ^ 2 by norm_num]
    exact Real.sqrt_sq (by norm_num)
  constructor
  · rw [length_lineSamples]
    have hsc : sampleCount 10 ⟨0, 19/100, 0, 0⟩ = 1 := by
      unfold sampleCount intTrunc
      rw [hlen, if_neg (by norm_num)]
      rw [show (19 : ℝ)/100 * 10 = 19/10 by norm_num]
      rw [Int.floor_eq_iff]
      norm_num
    rw [hsc]
    rfl
  · rw [hlen, round_eq]
    rw [show (19 : ℝ)/100 * 10 + 1/2 = 12/5 by norm_num]
    rw [Int.floor_eq_iff]
    norm_num

/-- C7 amended: the sample point count of a line is
`int(length * resolution)` (truncation toward zero — the floor for the
nonnegative values arising here), not `round(...)`; the samples are the
linear interpolation of the endpoints, and a zero-length line yields 0
sample points without failure. -/
theorem C7_samples_linear_interpolation_truncated_count (res : ℝ) (l : Line2D) :
    (lineSamples res l).length = (sampleCount res l).toNat ∧
    (0 ≤ lineLength l * res → sampleCount res l = ⌊lineLength l * res⌋) ∧
    (lineLength l = 0 → lineSamples res l = []) ∧
    (∀ i : ℕ, i < (sampleCount res l).toNat → 2 ≤ (sampleCount res l).toNat →
      (lineSamples res l).getD i (0, 0) =
        (l.start_x + (l.end_x - l.start_x) * (i : ℝ) /
            (((sampleCount res l).toNat : ℝ) - 1),
          l.start_y + (l.end_y - l.start_y) * (i : ℝ) /
            (((sampleCount res l).toNat : ℝ) - 1))) := by
  refine ⟨length_lineSamples res l, ?_, ?_, ?_⟩
  · intro h
    unfold sampleCount intTrunc
    rw [if_neg (not_lt.mpr h)]
  · intro h
    have hsc : (sampleCount res l).toNat = 0 := by
      unfold sampleCount intTrunc
      rw [h, zero_mul]
      norm_num
    unfold lineSamples
    rw [hsc]
    rfl
  · intro i hi h2
    unfold lineSamples
    have hzlen : ((linspace l.start_x l.end_x (sampleCount res l).toNat).zip
        (linspace l.start_y l.end_y (sampleCount res l).toNat)).length =
        (sampleCount res l).toNat := by
      simp [List.length_zip, length_linspace]
    rw [List.getD_eq_getElem _ _ (by rw [hzlen]; exact hi), List.getElem_zip]
    rw [← linspace_getD l.start_x l.end_x _ i hi h2,
      ← linspace_getD l.start_y l.end_y _ i hi h2,
      List.getD_eq_getElem (linspace l.start_x l.end_x (sampleCount res l).toNat) 0
        (by rw [length_linspace]; exact hi),
      List.getD_eq_getElem (linspace l.start_y l.end_y (sampleCount res l).toNat) 0
        (by rw [length_linspace]; exact hi)]

/-- Witness for C7 (amended): the truncated count equals the floor for the
line of the counterexample, and the zero-length line `(0,0,0,0)` yields no
samples and no failure. -/
theorem C7_samples_witness :
    sampleCount 10 ⟨0, 19/100, 0, 0⟩ = ⌊lineLength ⟨0, 19/100, 0, 0⟩ * 10⌋ ∧
    lineSamples 10 ⟨0, 0, 0, 0⟩ = [] :=
  ⟨(C7_samples_linear_interpolation_truncated_count 10 ⟨0, 19/100, 0, 0⟩).2.1
      (mul_nonneg (Real.sqrt_nonneg _) (by norm_num)),
    (C7_samples_linear_interpolation_truncated_count 10 ⟨0, 0, 0, 0⟩).2.2.1
      (by unfold lineLength; norm_num)⟩

/-- C9: `None` obstacle input is guarded and yields empty derived
structures without error, and the linspace derivation of an empty list is
also empty; but an empty obstacle *list* makes `_update_obstacles_raw`
raise (numpy cannot broadcast the empty right-hand side of
`obstacles[:, :4] = []` into shape `(0, 4)`), so constructing an `EnvState`
with `[]` fails rather than yielding empty descriptors. -/
theorem C9_none_ok_empty_list_raises :
    updateObstaclesRaw none = .ok [] ∧
    updateObstaclesLinspace 10 none = [] ∧
    envStateDerived none 10 = .ok ([], []) ∧
    updateObstaclesLinspace 10 (some []) = [] ∧
    updateObstaclesRaw (some []) =
      .error "could not broadcast input array from shape (0,) into shape (0,4)" ∧
    envStateDerived (some []) 10 =
      .error "could not broadcast input array from shape (0,) into shape (0,4)" := by
  exact ⟨rfl, rfl, rfl, rfl, rfl, rfl⟩

lemma cos_pymod_two_pi (x : ℝ) :
    Real.cos (pymod x (2 * Real.pi)) = Real.cos x := by
  unfold pymod
  rw [mul_comm (2 * Real.pi) ((⌊x / (2 * Real.pi)⌋ : ℤ) : ℝ)]
  exact Real.cos_sub_int_mul_two_pi x _

lemma sin_pymod_two_pi (x : ℝ) :
    Real.sin (pymod x (2 * Real.pi)) = Real.sin x := by
  unfold pymod
  rw [mul_comm (2 * Real.pi) ((⌊x / (2 * Real.pi)⌋ : ℤ) : ℝ)]
  exact Real.sin_sub_int_mul_two_pi x _

lemma cos_orthoOrient (l : Line2D) :
    Real.cos (orthoOrient l) =
      -Real.sin (atan2 (l.end_y - l.start_y) (l.end_x - l.start_x)) := by
  unfold orthoOrient orient
  rw [cos_pymod_two_pi, Real.cos_add_pi_div_two, sin_pymod_two_pi, Real.sin_add_two_pi]

lemma sin_orthoOrient (l : Line2D) :
    Real.sin (orthoOrient l) =
      Real.cos (atan2 (l.end_y - l.start_y) (l.end_x - l.start_x)) := by
  unfold orthoOrient orient
  rw [sin_pymod_two_pi, Real.sin_add_pi_div_two, cos_pymod_two_pi, Real.cos_add_two_pi]

lemma atan2_ten_zero : atan2 ((0 : ℝ) - 0) ((10 : ℝ) - 0) = 0 := by
  unfold atan2
  rw [show (⟨(10 : ℝ) - 0, (0 : ℝ) - 0⟩ : ℂ) = ((10 : ℝ) : ℂ) by
    apply Complex.ext <;> simp]
  rw [Complex.arg_ofReal_of_nonneg (by norm_num)]

lemma orthoOrient_horizontal : orthoOrient ⟨0, 10, 0, 0⟩ = Real.pi / 2 := by
  have horient : orient ⟨0, 10, 0, 0⟩ = 0 := by
    unfold orient
    rw [show (Line2D.mk 0 10 0 0).end_y - (Line2D.mk 0 10 0 0).start_y = (0 : ℝ) - 0 from rfl,
      show (Line2D.mk 0 10 0 0).end_x - (Line2D.mk 0 10 0 0).start_x = (10 : ℝ) - 0 from rfl,
      atan2_ten_zero, zero_add]
    unfold pymod
    rw [div_self (by positivity : (2 * Real.pi) ≠ 0)]
    norm_num
  unfold orthoOrient
  rw [horient, zero_add]
  unfold pymod
  rw [show Real.pi / 2 / (2 * Real.pi) = 1 / 4 by
    rw [div_div, div_eq_div_iff (by positivity) (by norm_num)]
    ring]
  rw [show ⌊(1 : ℝ) / 4⌋ = 0 by rw [Int.floor_eq_iff]; norm_num]
  norm_num

/-- C8: for every line given in the field order
`(start_x, end_x, start_y, end_y)`, the descriptor row is
`(start_x, start_y, end_x, end_y, ortho_x, ortho_y)` with
`(ortho_x, ortho_y) = (cos θ, sin θ)` for
`θ = ((atan2(Δy, Δx) + 2π) mod 2π + π/2) mod 2π` (first conjunct, by
construction), a unit vector (second conjunct) perpendicular to the line
direction for any non-degenerate line (third conjunct); for the horizontal
line `(0, 10, 0, 0)` the orthogonal vector is exactly `(0, 1)` (fourth and
fifth conjuncts). -/
theorem C8_descriptor_orthogonal :
    (∀ l : Line2D, descriptor l =
      [l.start_x, l.start_y, l.end_x, l.end_y,
        Real.cos (pymod (pymod (atan2 (l.end_y - l.start_y) (l.end_x - l.start_x) +
          2 * Real.pi) (2 * Real.pi) + Real.pi / 2) (2 * Real.pi)),
        Real.sin (pymod (pymod (atan2 (l.end_y - l.start_y) (l.end_x - l.start_x) +
          2 * Real.pi) (2 * Real.pi) + Real.pi / 2) (2 * Real.pi))]) ∧
    (∀ l : Line2D,
      Real.sqrt (Real.cos (orthoOrient l) ^ 2 + Real.sin (orthoOrient l) ^ 2) = 1) ∧
    (∀ l : Line2D, (l.end_x - l.start_x, l.end_y - l.start_y) ≠ ((0 : ℝ), (0 : ℝ)) →
      Real.cos (orthoOrient l) * (l.end_x - l.start_x) +
        Real.sin (orthoOrient l) * (l.end_y - l.start_y) = 0) ∧
    descriptor ⟨0, 10, 0, 0⟩ = [0, 0, 10, 0, 0, 1] ∧
    updateObstaclesRaw (some [⟨0, 10, 0, 0⟩]) = .ok [[0, 0, 10, 0, 0, 1]] := by
  have hdesc : descriptor ⟨0, 10, 0, 0⟩ = [0, 0, 10, 0, 0, 1] := by
    unfold descriptor
    rw [orthoOrient_horizontal, Real.cos_pi_div_two, Real.sin_pi_div_two]
  refine ⟨fun l => rfl, ?_, ?_, hdesc, ?_⟩
  · intro l
    rw [Real.cos_sq_add_sin_sq, Real.sqrt_one]
  · intro l h
    have hz : (⟨l.end_x - l.start_x, l.end_y - l.start_y⟩ : ℂ) ≠ 0 := by
      intro hz
      apply h
      have h1 := congrArg Complex.re hz
      have h2 := congrArg Complex.im hz
      simp only [Complex.zero_re, Complex.zero_im] at h1 h2
      rw [Prod.mk.injEq]
      exact ⟨h1, h2⟩
    have him : (⟨l.end_x - l.start_x, l.end_y - l.start_y⟩ : ℂ).im =
      l.end_y - l.start_y := rfl
    have hre : (⟨l.end_x - l.start_x, l.end_y - l.start_y⟩ : ℂ).re =
      l.end_x - l.start_x := rfl
    rw [cos_orthoOrient, sin_orthoOrient]
    unfold atan2
    rw [Complex.sin_arg, Complex.cos_arg hz, him, hre]
    have habs : Complex.abs ⟨l.end_x - l.start_x, l.end_y - l.start_y⟩ ≠ 0 :=
      fun habs0 => hz (Complex.abs.eq_zero.mp habs0)
    field_simp
    ring
  · rw [show updateObstaclesRaw (some [⟨0, 10, 0, 0⟩]) =
      .ok ([⟨0, 10, 0, 0⟩].map descriptor) from rfl, List.map_singleton, hdesc]

/-- Witness for C8: the perpendicularity conjunct applied to the horizontal
line `(0, 10, 0, 0)`. -/
theorem C8_descriptor_orthogonal_witness :
    Real.cos (orthoOrient ⟨0, 10, 0, 0⟩) * ((10 : ℝ) - 0) +
      Real.sin (orthoOrient ⟨0, 10, 0, 0⟩) * ((0 : ℝ) - 0) = 0 :=
  C8_descriptor_orthogonal.2.2.1 ⟨0, 10, 0, 0⟩ (by
    intro hq
    simp only [Prod.mk.injEq] at hq
    norm_num at hq)

/-- Heap of the Python objects relevant to snapshot aliasing: numpy array
objects (matrices) and group-list objects, addressed by naturals.  Python
variables and list elements hold references (addresses); `np.array(x)`
copies the numeric content of `x` into a fresh array object, while the
list display `[x]` stores the reference `x` itself. -/
structure Heap where
  mats : ℕ → List (List ℝ)
  lists : ℕ → List (List ℕ)

/-- In-place write to a numpy array object, as `PedState.step` performs via
`next_state = self.state` followed by `next_state[:, 0:2] += ...`. -/
def writeMat (h : Heap) (a : ℕ) (m : List (List ℝ)) : Heap :=
  { h with mats := Function.update h.mats a m }

/-- In-place mutation of a group-list object (e.g. appending to the live
`self.groups` list). -/
def writeList (h : Heap) (a : ℕ) (g : List (List ℕ)) : Heap :=
  { h with lists := Function.update h.lists a g }

/-- The references held by a live `PedState`: the address of its `_state`
array and of its `_groups` list. -/
structure PedStateRef where
  stateAddr : ℕ
  groupsAddr : ℕ

/-- `PedState.get_states()`, returning
`np.array([self.state]), [self.groups]`: the first component allocates a
fresh array (at the unused address `fresh`) holding a copy of the current
state content; the second is a new one-element Python list whose entry is a
reference to the same live `_groups` object. -/
def getStates (h : Heap) (ps : PedStateRef) (fresh : ℕ) : Heap × (ℕ × List ℕ) :=
  (writeMat h fresh (h.mats ps.stateAddr), (fresh, [ps.groupsAddr]))

/-- Reading the state component of a snapshot dereferences its array
object. -/
def readSnapStates (h : Heap) (snap : ℕ × List ℕ) : List (List ℝ) := h.mats snap.1

/-- Reading the group component of a snapshot dereferences each stored
list reference. -/
def readSnapGroups (h : Heap) (snap : ℕ × List ℕ) : List (List (List ℕ)) :=
  snap.2.map h.lists

/-- `VisualizableSimState` (sim_view.py): step index, pedestrian positions
and per-agent action segments. -/
structure VisualizableSimState where
  timestep : ℕ
  pedestrian_positions : List (ℝ × ℝ)
  ped_actions : List ((ℝ × ℝ) × (ℝ × ℝ))

/-- `to_visualizable_state(step, sim_state)`: positions `state[:, 0:2]` and
action segments from `position` to `position + velocity`, all built with
`np.array`/`np.concatenate`, i.e. as fresh value copies of the given state
matrix. -/
def to_visualizable_state (t : ℕ) (state : List (List ℝ)) : VisualizableSimState :=
  let ped_pos := state.map (fun r => (r.getD 0 0, r.getD 1 0))
  let ped_vel := state.map (fun r => (r.getD 2 0, r.getD 3 0))
  ⟨t, ped_pos,
    (ped_pos.zip ped_vel).map (fun p => (p.1, (p.1.1 + p.2.1, p.1.2 + p.2.2)))⟩

/-- C6 counterexample: with the live state array at address 0 and the live
group list `[[0]]` at address 0, a snapshot is taken (its array copy goes
to the fresh address 1); an in-place mutation of the live group list to
`[[0, 1]]` is then visible through the already-produced snapshot, whose
group component reads `[[[0, 1]]]` instead of the `[[[0]]]` it held at
snapshot time — the snapshot's group list is not an independent copy. -/
theorem C6_counterexample_groups_alias :
    readSnapGroups
      (writeList (getStates ⟨fun _ => [[1]], fun _ => [[0]]⟩ ⟨0, 0⟩ 1).1 0 [[0, 1]])
      (getStates ⟨fun _ => [[1]], fun _ => [[0]]⟩ ⟨0, 0⟩ 1).2 = [[[0, 1]]] ∧
    readSnapGroups (getStates ⟨fun _ => [[1]], fun _ => [[0]]⟩ ⟨0, 0⟩ 1).1
      (getStates ⟨fun _ => [[1]], fun _ => [[0]]⟩ ⟨0, 0⟩ 1).2 = [[[0]]] ∧
    readSnapGroups
      (writeList (getStates ⟨fun _ => [[1]], fun _ => [[0]]⟩ ⟨0, 0⟩ 1).1 0 [[0, 1]])
      (getStates ⟨fun _ => [[1]], fun _ => [[0]]⟩ ⟨0, 0⟩ 1).2 ≠
    readSnapGroups (getStates ⟨fun _ => [[1]], fun _ => [[0]]⟩ ⟨0, 0⟩ 1).1
      (getStates ⟨fun _ => [[1]], fun _ => [[0]]⟩ ⟨0, 0⟩ 1).2 := by
  refine ⟨?_, ?_, ?_⟩ <;>
    simp [readSnapGroups, getStates, writeList, writeMat, Function.update]

/-- C6 amended: the state-matrix part of the `get_states` snapshot is a
genuine copy — after any later in-place writes to the live state array (as
`step()` performs) and to the live group list, reading the snapshot's state
still yields the content from snapshot time, and the visualizable state
derived from it is likewise unchanged; the snapshot's group component,
however, aliases the live `_groups` object: after an in-place mutation of
the live group list it reads the new value. -/
theorem C6_snapshot_state_copied_groups_aliased (h : Heap) (ps : PedStateRef)
    (fresh : ℕ) (hfresh : fresh ≠ ps.stateAddr)
    (m : List (List ℝ)) (g : List (List ℕ)) (t : ℕ) :
    readSnapStates (writeList (writeMat (getStates h ps fresh).1 ps.stateAddr m)
        ps.groupsAddr g) (getStates h ps fresh).2 = h.mats ps.stateAddr ∧
    to_visualizable_state t (readSnapStates (writeList (writeMat
        (getStates h ps fresh).1 ps.stateAddr m) ps.groupsAddr g)
        (getStates h ps fresh).2) =
      to_visualizable_state t (h.mats ps.stateAddr) ∧
    readSnapGroups (writeList (writeMat (getStates h ps fresh).1 ps.stateAddr m)
        ps.groupsAddr g) (getStates h ps fresh).2 = [g] := by
  have hstates : readSnapStates (writeList (writeMat (getStates h ps fresh).1
      ps.stateAddr m) ps.groupsAddr g) (getStates h ps fresh).2 =
      h.mats ps.stateAddr := by
    simp [readSnapStates, getStates, writeMat, writeList, Function.update, hfresh]
  refine ⟨hstates, by rw [hstates], ?_⟩
  simp [readSnapGroups, getStates, writeMat, writeList, Function.update]

/-- Witness for C6 (amended) at the concrete heap of the counterexample. -/
theorem C6_snapshot_state_copied_groups_aliased_witness :
    readSnapStates
      (writeList (writeMat (getStates ⟨fun _ => [[1]], fun _ => [[0]]⟩ ⟨0, 0⟩ 1).1
        0 [[2]]) 0 [[0, 1]])
      (getStates ⟨fun _ => [[1]], fun _ => [[0]]⟩ ⟨0, 0⟩ 1).2 = [[1]] ∧
    to_visualizable_state 0
      (readSnapStates
        (writeList (writeMat (getStates ⟨fun _ => [[1]], fun _ => [[0]]⟩ ⟨0, 0⟩ 1).1
          0 [[2]]) 0 [[0, 1]])
        (getStates ⟨fun _ => [[1]], fun _ => [[0]]⟩ ⟨0, 0⟩ 1).2) =
      to_visualizable_state 0 [[1]] ∧
    readSnapGroups
      (writeList (writeMat (getStates ⟨fun _ => [[1]], fun _ => [[0]]⟩ ⟨0, 0⟩ 1).1
        0 [[2]]) 0 [[0, 1]])
      (getStates ⟨fun _ => [[1]], fun _ => [[0]]⟩ ⟨0, 0⟩ 1).2 = [[[0, 1]]] :=
  C6_snapshot_state_copied_groups_aliased ⟨fun _ => [[1]], fun _ => [[0]]⟩ ⟨0, 0⟩ 1
    (by norm_num) [[2]] [[0, 1]] 0
